import Mathlib

/-!
Verification of the `test_runner` VM orchestrator (`test_runner/app.py`).

Byte strings are modelled as `List Nat` (one `Nat` per byte), socket reads
as lists of chunks (`List (List Nat)`), and the various control flows as
explicit recursive functions over those inputs. Each definition mirrors the
corresponding Python function; theorems below settle the specification
claims against these embeddings.
-/

namespace TestRunner

/-- The literal 7-byte prompt `b"(qemu) "` from `_monitor_wait_for_prompt`. -/
def qemuPrompt : List Nat := [40, 113, 101, 109, 117, 41, 32]

/-- Loop body of `_monitor_wait_for_prompt`: `answer` is the accumulated
buffer, the list is the sequence of values returned by successive
`recv(1024)` calls (an empty chunk models the peer closing the connection).
Mirrors the Python exactly: on an empty read, break and return the buffer;
otherwise append the chunk, and if the buffer now ends with the prompt,
set `answer = answer[:len(suffix)]` (the first 7 bytes — as written in the
source) and break. If the chunk list is exhausted without a break the real
code would block in `recv` forever; that is modelled as `none`. -/
def monitorWaitForPromptAux (answer : List Nat) :
    List (List Nat) → Option (List Nat)
  | [] => none
  | chunk :: rest =>
    if chunk = [] then
      some answer
    else
      let a := answer ++ chunk
      if qemuPrompt.isSuffixOf a then
        some (a.take qemuPrompt.length)
      else
        monitorWaitForPromptAux a rest

/-- `_monitor_wait_for_prompt`, as a function of the sequence of chunks the
console connection yields. -/
def monitorWaitForPrompt (chunks : List (List Nat)) : Option (List Nat) :=
  monitorWaitForPromptAux [] chunks

/-- If every chunk read so far is nonempty and no accumulated buffer ever
ends with the prompt, then an empty read (peer closed the connection)
makes the loop return everything accumulated, untouched. -/
theorem monitorWaitForPromptAux_eof (pre : List (List Nat)) :
    ∀ (answer : List Nat) (rest : List (List Nat)),
      (∀ c ∈ pre, c ≠ []) →
      (∀ k, qemuPrompt.isSuffixOf (answer ++ (pre.take k).flatten) = false) →
      monitorWaitForPromptAux answer (pre ++ [] :: rest) =
        some (answer ++ pre.flatten) := by
  induction pre with
  | nil =>
    intro answer rest _ _
    simp [monitorWaitForPromptAux]
  | cons c pre ih =>
    intro answer rest hne hnp
    have hc : c ≠ [] := hne c (by simp)
    have h1 := hnp 1
    simp [List.take_succ_cons, List.take_nil] at h1
    have step :
        monitorWaitForPromptAux answer ((c :: pre) ++ [] :: rest) =
          monitorWaitForPromptAux (answer ++ c) (pre ++ [] :: rest) := by
      simp only [List.cons_append, monitorWaitForPromptAux, if_neg hc]
      rw [if_neg (by simp [h1])]
      rfl
    rw [step, ih (answer ++ c) rest (fun d hd => hne d (by simp [hd]))
      (fun k => by
        have := hnp (k + 1)
        simpa [List.take_succ_cons, List.append_assoc] using this)]
    simp

end TestRunner

namespace TestRunner

/-- C1: The claim states the framing read returns exactly the bytes
preceding the trailing prompt and the result never ends with the prompt.
The code instead executes `answer = answer[:len(suffix)]`, keeping the
FIRST seven bytes of the buffer. Evaluated on the single chunk
`b"AB(qemu) "` the code returns `b"AB(qemu"` (not `b"AB"`), and on the
single chunk `b"(qemu) (qemu) "` it returns `b"(qemu) "`, which ends with
the prompt sequence. -/
theorem monitorWaitForPrompt_keeps_first_bytes :
    monitorWaitForPrompt [[65, 66] ++ qemuPrompt] =
      some [65, 66, 40, 113, 101, 109, 117] ∧
    monitorWaitForPrompt [qemuPrompt ++ qemuPrompt] = some qemuPrompt ∧
    qemuPrompt.isSuffixOf qemuPrompt = true := by
  refine ⟨?_, ?_, ?_⟩ <;> decide

/-- C10: if the console peer closes the connection (a `recv` returns zero
bytes) before any accumulated buffer ends with the prompt, the framing read
terminates and returns all bytes accumulated so far unmodified: no
prompt-stripping and no error. `pre` is the sequence of nonempty chunks
received before the empty read. -/
theorem monitorWaitForPrompt_on_eof (pre rest : List (List Nat))
    (hne : ∀ c ∈ pre, c ≠ [])
    (hnp : ∀ k, qemuPrompt.isSuffixOf ((pre.take k).flatten) = false) :
    monitorWaitForPrompt (pre ++ [] :: rest) = some pre.flatten := by
  have h := monitorWaitForPromptAux_eof pre [] rest hne
    (fun k => by simpa using hnp k)
  simpa [monitorWaitForPrompt] using h

/-- Witness for C10: chunks `b"hi"` then EOF yield `b"hi"` back. -/
theorem monitorWaitForPrompt_on_eof_witness :
    monitorWaitForPrompt [[104, 105], []] = some [104, 105] := by
  have h := monitorWaitForPrompt_on_eof [[104, 105]] [] (by decide)
    (fun k => by
      match k with
      | 0 => decide
      | n + 1 =>
        simp only [List.take_succ_cons, List.take_nil]
        decide)
  simpa using h

/-- Python `bytes.splitlines` on a byte list: lines are broken at
`\n` (10), `\r` (13) and `\r\n` (13,10); a trailing line break produces no
empty final line. `acc` holds the current line, reversed. -/
def bytesSplitlinesAux (acc : List Nat) : List Nat → List (List Nat)
  | [] => if acc = [] then [] else [acc.reverse]
  | 13 :: 10 :: rest => acc.reverse :: bytesSplitlinesAux [] rest
  | 13 :: rest => acc.reverse :: bytesSplitlinesAux [] rest
  | 10 :: rest => acc.reverse :: bytesSplitlinesAux [] rest
  | b :: rest => bytesSplitlinesAux (b :: acc) rest

/-- `content.splitlines()` for bytes. -/
def bytesSplitlines (content : List Nat) : List (List Nat) :=
  bytesSplitlinesAux [] content

/-- `_is_on_login_screen`, as a function of the screendump capture bytes:
`content.splitlines()[3].startswith(b'\x22\x22&')`. Python raises
`IndexError` when the capture has fewer than 4 lines; this is modelled as
`none`. -/
def isOnLoginScreen (content : List Nat) : Option Bool :=
  match (bytesSplitlines content)[3]? with
  | some line => some ([34, 34, 38].isPrefixOf line)
  | none => none

/-- A key event injected over the console proxy by `_log_in_user`:
`sendkey ret` or `sendkey <character>`. -/
inductive Key where
  | ret
  | ch (c : Char)
deriving DecidableEq, Repr

/-- The sequence of key events `_log_in_user` sends: one `ret`, one key
per password character, one final `ret`. -/
def logInUserKeys (password : List Char) : List Key :=
  Key.ret :: password.map Key.ch ++ [Key.ret]

/-- C6: if the screendump capture's 4th line starts with the bytes
`\x22\x22&`, the login-screen check reports detected (`some true`), and the
subsequent login injects exactly `password.length + 2` key events: one
confirm key, one key per password character, then a final confirm key. -/
theorem login_screen_detected_and_key_count (content : List Nat)
    (pw : List Char)
    (h : ∃ line, (bytesSplitlines content)[3]? = some line ∧
      [34, 34, 38].isPrefixOf line = true) :
    isOnLoginScreen content = some true ∧
    (logInUserKeys pw).length = pw.length + 2 ∧
    logInUserKeys pw = Key.ret :: pw.map Key.ch ++ [Key.ret] := by
  obtain ⟨line, hl, hp⟩ := h
  refine ⟨by simp [isOnLoginScreen, hl, hp], ?_, rfl⟩
  simp [logInUserKeys]

/-- Witness for C6: a concrete capture whose 4th line is `b"\x22\x22&XYZ"`
and the two-character password `"pw"`. -/
theorem login_screen_detected_and_key_count_witness :
    isOnLoginScreen
        [80, 54, 10, 56, 48, 32, 50, 53, 10, 50, 53, 53, 10,
          34, 34, 38, 88, 89, 90] = some true ∧
    (logInUserKeys ['p', 'w']).length = ['p', 'w'].length + 2 ∧
    logInUserKeys ['p', 'w'] =
      Key.ret :: ['p', 'w'].map Key.ch ++ [Key.ret] :=
  login_screen_detected_and_key_count _ ['p', 'w']
    ⟨[34, 34, 38, 88, 89, 90], by decide, by decide⟩

/-- Outcome of one SSH readiness attempt, i.e. of the call
`ssh_scripts["root"](["true"], timeout=retry_timeout)`. `_run_script`
invokes `subprocess.run` WITHOUT `check=True`, so a remote command that
exits non-zero (e.g. 255 for a connection reset) does not raise: it
returns a `CompletedProcess` carrying that return code. Only a timeout
raises `TimeoutExpired`; any other exception propagates. -/
inductive SshAttempt where
  | timeoutExpired
  | completed (returncode : Int)
  | otherError
deriving DecidableEq, Repr

/-- Result of `_wait_for_ssh`. -/
inductive SshResult where
  | success
  | fatalOther
  | exhausted
deriving DecidableEq, Repr

/-- The retry loop of `_wait_for_ssh` with `n` attempts remaining, reading
each attempt's outcome from the list. A normal return from the subprocess
— any exit code — sets `success = True` and breaks; `TimeoutExpired` is
logged and retried; the `except subprocess.CalledProcessError` branch is
unreachable because `check=True` is never passed, so it is absent here;
any other exception propagates (`fatalOther`). Exhausting the attempts
raises the could-not-establish RuntimeError (`exhausted`). -/
def waitForSshAux : Nat → List SshAttempt → SshResult
  | 0, _ => .exhausted
  | _ + 1, [] => .exhausted
  | n + 1, o :: rest =>
    match o with
    | .completed _ => .success
    | .timeoutExpired => waitForSshAux n rest
    | .otherError => .fatalOther

/-- `_wait_for_ssh`: `attempts = 20`. -/
def waitForSsh (outcomes : List SshAttempt) : SshResult :=
  waitForSshAux 20 outcomes

/-- C3 (code bug): the claim says an attempt whose remote command exits
non-zero (connection reset, ssh exit 255) is a retriable failure and is
never counted as success. In the code, `_run_script` omits `check=True`,
so such an attempt returns normally and `_wait_for_ssh` immediately
declares success on it; the `CalledProcessError` handler commented "should
also trigger a retry" is dead code. The other loop bounds do hold: 20
timeouts exhaust the budget and a foreign exception is fatal at once. -/
theorem waitForSsh_nonzero_exit_is_success :
    waitForSsh [SshAttempt.completed 255] = SshResult.success ∧
    waitForSsh (List.replicate 20 SshAttempt.timeoutExpired) =
      SshResult.exhausted ∧
    waitForSsh (SshAttempt.otherError :: []) = SshResult.fatalOther := by
  refine ⟨rfl, by decide, rfl⟩

/-- Outcome of `_nix_build` as a function of the verbosity flag, the build
tool's exit code, and its stdout/stderr byte streams. The code runs the
tool with `capture_output=not verbose`; on a non-zero exit it executes
`print(proc.stdout.decode())`, but in verbose mode nothing was captured
and `proc.stdout` is `None`, so `.decode()` raises `AttributeError`
instead of printing and raising the intended `SuppressedException`. -/
inductive BuildOutcome where
  | ok
  | suppressedFailure (stdout stderr : List Nat)
  | attributeError
deriving DecidableEq, Repr

/-- `_nix_build`'s result. -/
def nixBuild (verbose : Bool) (returncode : Int)
    (stdoutBytes stderrBytes : List Nat) : BuildOutcome :=
  if returncode = 0 then .ok
  else if verbose then .attributeError
  else .suppressedFailure stdoutBytes stderrBytes

/-- The externally observable steps `_setup_vm` can perform, in program
order. The first four port/launch steps live inside `_start_qemu`;
`commonScript` is the second post-login `_ssh_run_script_maybe` call. -/
inductive SetupStep where
  | sshKeypair
  | nixBuildStep
  | allocSshPort
  | allocVncPort
  | launchHypervisor
  | startMonitorProxy
  | createRunScripts
  | waitForSshStep
  | mountCode
  | preLoginScript
  | loginScreenWait
  | logInUserStep
  | postLoginScript
  | commonScript
  | writeMarker
deriving DecidableEq, Repr

/-- The step sequence `_setup_vm` executes, as a function of
`already_setup = setup_complete_file.exists()`: the build, the pre/post
login scripts and the marker write are guarded by `if not already_setup`,
everything else runs unconditionally. -/
def setupVmSteps (alreadySetup : Bool) : List SetupStep :=
  [.sshKeypair] ++
  (if alreadySetup then [] else [.nixBuildStep]) ++
  [.allocSshPort, .allocVncPort, .launchHypervisor, .startMonitorProxy,
    .createRunScripts, .waitForSshStep, .mountCode] ++
  (if alreadySetup then [] else [.preLoginScript]) ++
  [.loginScreenWait, .logInUserStep] ++
  (if alreadySetup then [] else [.postLoginScript, .commonScript,
    .writeMarker])

/-- Run a step list where `failAt` names the first step that raises (if it
occurs in the list). Returns the steps completed and whether the whole
sequence returned normally. -/
def performSteps : List SetupStep → Option SetupStep → List SetupStep × Bool
  | [], _ => ([], true)
  | s :: rest, failAt =>
    if failAt = some s then ([], false)
    else
      let r := performSteps rest failAt
      (s :: r.1, r.2)

/-- How `startvm` ends. -/
inductive SessionOutcome where
  | normal
  | errorPropagated
deriving DecidableEq, Repr

/-- Observable effects of one `startvm` call. -/
structure StartvmRun where
  performed : List SetupStep
  setupOk : Bool
  hypervisorLaunched : Bool
  shutdownRan : Bool
  rmtreeCalled : Bool
  outcome : SessionOutcome
deriving DecidableEq, Repr

/-- `startvm`, over: the caller's `vm_dir` argument, the temp directory
`tempfile.mkdtemp()` would yield, the verbosity flag, whether the
completion marker exists, which `_setup_vm` step (if any) raises, and
whether the interactive SSH session raises.

Mirrors the source: `vm_dir` is immediately rebound to
`Path(vm_dir if vm_dir else tempfile.mkdtemp())`; `shutdown_vm` starts as
`None` and is assigned only when `_setup_vm` returns, so the `finally`
block runs shutdown exactly when setup succeeded; the cleanup branch
tests the rebound `vm_dir is None`; a `SuppressedException` (raised only
by a non-verbose build failure) is swallowed, every other exception
propagates. -/
def startvmRun (vmDirArg : Option String) (tmpDir : String)
    (verbose markerExists : Bool) (failAt : Option SetupStep)
    (interactiveRaises : Bool) : StartvmRun :=
  let vmDirBound : Option String :=
    some (match vmDirArg with | some d => d | none => tmpDir)
  let r := performSteps (setupVmSteps markerExists) failAt
  { performed := r.1
    setupOk := r.2
    hypervisorLaunched := decide (SetupStep.launchHypervisor ∈ r.1)
    shutdownRan := r.2
    rmtreeCalled := vmDirBound.isNone
    outcome :=
      if r.2 then
        if interactiveRaises then .errorPropagated else .normal
      else
        match failAt, verbose with
        | some SetupStep.nixBuildStep, false => .normal
        | _, _ => .errorPropagated }

/-- With no failing step, every step of the list completes. -/
theorem performSteps_none (l : List SetupStep) :
    performSteps l none = (l, true) := by
  induction l with
  | nil => rfl
  | cons s rest ih => simp [performSteps, ih]

/-- C2 counterexample: a fresh session whose SSH readiness wait fails
after the hypervisor launch. The hypervisor has been launched, but
`shutdown_vm` is still `None` in `startvm` (the `_setup_vm` call never
returned), so the `finally` block kills nothing: the process is left
running, contradicting the claim that shutdown runs on every exit path. -/
theorem shutdown_skipped_on_postlaunch_failure :
    (startvmRun none "tmp" false false
      (some SetupStep.waitForSshStep) false).hypervisorLaunched = true ∧
    (startvmRun none "tmp" false false
      (some SetupStep.waitForSshStep) false).shutdownRan = false ∧
    (startvmRun none "tmp" false false
      (some SetupStep.waitForSshStep) false).outcome =
        SessionOutcome.errorPropagated := by
  decide

/-- C2 amended: shutdown (process kill plus proxy-cancellation signal)
runs exactly when `_setup_vm` returned successfully; in particular it runs
on every exit of the interactive phase — normal exit or an interactive
error — and a session with no setup failure ends normally with shutdown
run. When any `_setup_vm` step raises, shutdown does not run, so a
failure after the hypervisor launch leaves the process unkilled. -/
theorem shutdown_runs_iff_setup_succeeded (vmDirArg : Option String)
    (tmpDir : String) (verbose markerExists : Bool)
    (failAt : Option SetupStep) (interactiveRaises : Bool) :
    (startvmRun vmDirArg tmpDir verbose markerExists failAt
        interactiveRaises).shutdownRan =
      (startvmRun vmDirArg tmpDir verbose markerExists failAt
        interactiveRaises).setupOk ∧
    (startvmRun vmDirArg tmpDir verbose markerExists none
        interactiveRaises).shutdownRan = true ∧
    (startvmRun vmDirArg tmpDir verbose markerExists none false).outcome =
      SessionOutcome.normal := by
  refine ⟨rfl, ?_, ?_⟩ <;>
    simp [startvmRun, performSteps_none]

/-- C4: with the completion marker already present (`already_setup`), a
session performs no image build and no pre-login, post-login or common
script, but still allocates the guest-access and display ports, launches
the hypervisor, waits for SSH readiness, mounts the shared directory and
injects the login keys; a fully successful such session performs exactly
`setupVmSteps true`. -/
theorem second_session_skips_build_and_scripts :
    SetupStep.nixBuildStep ∉ setupVmSteps true ∧
    SetupStep.preLoginScript ∉ setupVmSteps true ∧
    SetupStep.postLoginScript ∉ setupVmSteps true ∧
    SetupStep.commonScript ∉ setupVmSteps true ∧
    SetupStep.allocSshPort ∈ setupVmSteps true ∧
    SetupStep.allocVncPort ∈ setupVmSteps true ∧
    SetupStep.launchHypervisor ∈ setupVmSteps true ∧
    SetupStep.waitForSshStep ∈ setupVmSteps true ∧
    SetupStep.mountCode ∈ setupVmSteps true ∧
    SetupStep.logInUserStep ∈ setupVmSteps true ∧
    (startvmRun none "t" false true none false).performed =
      setupVmSteps true := by
  decide

/-- C5 (code bug): on a non-zero build-tool exit in non-verbose mode the
build surfaces the captured stdout/stderr and raises the suppressed
build-failed condition, and the hypervisor is never launched, the session
ending without a stack dump; but in verbose mode nothing was captured, so
`print(proc.stdout.decode())` raises `AttributeError` and the session
aborts with a propagated error instead of the suppressed condition —
the claim's "holds in both verbose and non-verbose mode" fails. -/
theorem nix_build_failure_behavior :
    nixBuild false 2 [65] [66] = BuildOutcome.suppressedFailure [65] [66] ∧
    nixBuild true 2 [65] [66] = BuildOutcome.attributeError ∧
    (startvmRun none "t" false false
      (some SetupStep.nixBuildStep) false).hypervisorLaunched = false ∧
    (startvmRun none "t" false false
      (some SetupStep.nixBuildStep) false).outcome =
        SessionOutcome.normal ∧
    (startvmRun none "t" true false
      (some SetupStep.nixBuildStep) false).outcome =
        SessionOutcome.errorPropagated := by
  decide

/-- C9: the cleanup branch guarded by `vm_dir is None` is unreachable —
`vm_dir` was rebound to `Path(vm_dir if vm_dir else tempfile.mkdtemp())`,
which is never `None` — so `shutil.rmtree` is never called and the working
directory (even a freshly created temporary one) persists on every exit
path. -/
theorem vm_dir_never_deleted (vmDirArg : Option String) (tmpDir : String)
    (verbose markerExists : Bool) (failAt : Option SetupStep)
    (interactiveRaises : Bool) :
    (startvmRun vmDirArg tmpDir verbose markerExists failAt
      interactiveRaises).rmtreeCalled = false := by
  rfl

/-- What one iteration of `_monitor_start_proxy` encounters:
`monitor_proxy_socket.accept()` times out (`socket.timeout`), or a client
connects and delivers `request` (its `recv(1024)`), with `monitorChunks`
the console bytes available for the prompt-framed read. The whole exchange
sits inside one `try` whose `except (socket.timeout, BrokenPipeError)`
swallows failures mid-exchange, so the client outcome also records the two
points where a `BrokenPipeError` can strike: `monitorSendRaises` models
`monitor_connection.send(request)` raising (the command never reaches the
console, nothing further in the iteration runs), and `clientSendRaises`
models `client_sock.send(answer)` raising after the prompt-framed response
was already read (the response is not delivered and `client_sock.close()`
is skipped). -/
inductive AcceptOutcome where
  | timeout
  | client (request : List Nat) (monitorChunks : List (List Nat))
      (monitorSendRaises : Bool) (clientSendRaises : Bool)
deriving DecidableEq, Repr

/-- One loop iteration's environment: the value `is_set()` returns at the
top-of-loop check, and what the accept then yields. -/
structure IterInput where
  flagSet : Bool
  outcome : AcceptOutcome
deriving DecidableEq, Repr

/-- Observable events of the proxy loop, tagged with the iteration (and
thus client) number: a client is accepted; its command bytes are forwarded
to the console connection; the prompt-framed response is fully read from
the console; the response is sent back to the client; the client socket is
closed. -/
inductive ProxyEvent where
  | acceptTimeout (i : Nat)
  | accepted (i : Nat)
  | forwarded (i : Nat) (request : List Nat)
  | responded (i : Nat) (answer : Option (List Nat))
  | sentBack (i : Nat) (answer : Option (List Nat))
  | closed (i : Nat)
deriving DecidableEq, Repr

/-- Events of one loop iteration, mirroring the `try` body. An accept
timeout is swallowed. For a client: an empty request (`if request:`
false) goes straight to `client_sock.close()`. Otherwise
`monitor_connection.send(request)` runs: if it raises `BrokenPipeError`
the exception is swallowed and the iteration ends — no forward, no close.
When the forward succeeds, `_monitor_wait_for_prompt` always runs to
completion (a `recv` loop raises no `BrokenPipeError`), so the framed
response is fully read from the console; then `client_sock.send(answer)`
either delivers it and the socket is closed, or raises `BrokenPipeError`,
which is swallowed, skipping both the delivery and the close. -/
def exchangeEvents (i : Nat) : AcceptOutcome → List ProxyEvent
  | .timeout => [.acceptTimeout i]
  | .client req chunks monitorSendRaises clientSendRaises =>
    .accepted i ::
      (if req = [] then [.closed i]
       else if monitorSendRaises then []
       else
         [.forwarded i req, .responded i (monitorWaitForPrompt chunks)] ++
           (if clientSendRaises then []
            else [.sentBack i (monitorWaitForPrompt chunks), .closed i]))

/-- `_monitor_start_proxy`'s loop
`while not monitor_proxy_stop_event.is_set(): ...` as a trace of events,
iteration `i` first: the flag is checked once per iteration and, when
clear, the whole single-threaded exchange of that iteration runs before
the next check. -/
def monitorStartProxy (i : Nat) : List IterInput → List ProxyEvent
  | [] => []
  | inp :: rest =>
    if inp.flagSet then []
    else exchangeEvents i inp.outcome ++ monitorStartProxy (i + 1) rest

/-- The iteration an event belongs to. -/
def eventIter : ProxyEvent → Nat
  | .acceptTimeout i => i
  | .accepted i => i
  | .forwarded i _ => i
  | .responded i _ => i
  | .sentBack i _ => i
  | .closed i => i

/-- Position of an event inside its own exchange. -/
def eventRank : ProxyEvent → Nat
  | .acceptTimeout _ => 0
  | .accepted _ => 0
  | .forwarded _ _ => 1
  | .responded _ _ => 2
  | .sentBack _ _ => 3
  | .closed _ => 4

/-- `a` happens strictly before `b` in the serialized exchange order:
an earlier iteration, or the same iteration at an earlier rank. -/
def ProxyEventOrder (a b : ProxyEvent) : Prop :=
  eventIter a < eventIter b ∨
    (eventIter a = eventIter b ∧ eventRank a < eventRank b)

/-- Every event of iteration `i`'s exchange carries iteration number `i`. -/
theorem eventIter_of_mem_exchangeEvents (i : Nat) (o : AcceptOutcome)
    (e : ProxyEvent) (h : e ∈ exchangeEvents i o) : eventIter e = i := by
  cases o with
  | timeout => simp [exchangeEvents] at h; subst h; rfl
  | client req chunks ms cs =>
    by_cases hreq : req = [] <;> cases ms <;> cases cs <;>
      simp [exchangeEvents, hreq] at h <;>
      first
        | (subst h; rfl)
        | (rcases h with rfl | rfl <;> rfl)
        | (rcases h with rfl | rfl | rfl <;> rfl)
        | (rcases h with rfl | rfl | rfl | rfl | rfl <;> rfl)

/-- Every event emitted from iteration `j` on has iteration number ≥ `j`. -/
theorem le_eventIter_of_mem (inputs : List IterInput) :
    ∀ (j : Nat) (e : ProxyEvent), e ∈ monitorStartProxy j inputs →
      j ≤ eventIter e := by
  induction inputs with
  | nil => intro j e h; simp [monitorStartProxy] at h
  | cons inp rest ih =>
    intro j e h
    simp only [monitorStartProxy] at h
    by_cases hf : inp.flagSet
    · rw [if_pos hf] at h; simp at h
    · rw [if_neg hf] at h
      rcases List.mem_append.mp h with h | h
      · exact le_of_eq (eventIter_of_mem_exchangeEvents j inp.outcome e h).symm
      · exact le_trans (Nat.le_succ j) (ih (j + 1) e h)

/-- The events of a single exchange are strictly ordered. -/
theorem pairwise_exchangeEvents (i : Nat) (o : AcceptOutcome) :
    (exchangeEvents i o).Pairwise ProxyEventOrder := by
  cases o with
  | timeout => simp [exchangeEvents]
  | client req chunks ms cs =>
    by_cases hreq : req = [] <;> cases ms <;> cases cs <;>
      simp [exchangeEvents, hreq, List.pairwise_cons, ProxyEventOrder,
        eventIter, eventRank]

/-- The whole proxy trace is strictly ordered by `ProxyEventOrder`. -/
theorem pairwise_monitorStartProxy (inputs : List IterInput) :
    ∀ j : Nat, (monitorStartProxy j inputs).Pairwise ProxyEventOrder := by
  induction inputs with
  | nil => intro j; simp [monitorStartProxy]
  | cons inp rest ih =>
    intro j
    simp only [monitorStartProxy]
    by_cases hf : inp.flagSet
    · rw [if_pos hf]; exact List.Pairwise.nil
    · rw [if_neg hf]
      refine List.pairwise_append.mpr
        ⟨pairwise_exchangeEvents j inp.outcome, ih (j + 1), ?_⟩
      intro a ha b hb
      have h1 : eventIter a = j :=
        eventIter_of_mem_exchangeEvents j inp.outcome a ha
      have h2 : j + 1 ≤ eventIter b := le_eventIter_of_mem rest (j + 1) b hb
      exact Or.inl (by omega)

/-- Position ordering: if event `eq'` precedes event `ep` in exchange
order (an earlier iteration, or the same iteration at an earlier rank),
then `eq'` occupies an earlier trace position. -/
theorem pos_lt_of_proxyEventOrder (inputs : List IterInput)
    (p q : Nat) (ep eq' : ProxyEvent)
    (hp : (monitorStartProxy 0 inputs)[p]? = some ep)
    (hq : (monitorStartProxy 0 inputs)[q]? = some eq')
    (hord : ProxyEventOrder eq' ep) : q < p := by
  have hP : (monitorStartProxy 0 inputs).Pairwise ProxyEventOrder :=
    pairwise_monitorStartProxy inputs 0
  obtain ⟨hp', hpe⟩ := List.getElem?_eq_some.mp hp
  obtain ⟨hq', hqe⟩ := List.getElem?_eq_some.mp hq
  by_contra hcon
  have hpq : p ≤ q := Nat.le_of_not_lt hcon
  rcases Nat.lt_or_ge p q with hlt | hge
  · have := List.pairwise_iff_getElem.mp hP p q hp' hq' hlt
    rw [hpe, hqe] at this
    rcases this with h | ⟨h1, h2⟩ <;> rcases hord with h' | ⟨h1', h2'⟩ <;>
      omega
  · have hpq' : p = q := Nat.le_antisymm hpq hge
    subst hpq'
    rw [hpe] at hqe
    subst hqe
    rcases hord with h | ⟨h1, h2⟩ <;> omega

/-- Within one iteration's exchange, a forwarded command is always
followed by its fully read prompt-framed response: `_monitor_wait_for_prompt`
runs unconditionally right after a successful `monitor_connection.send`. -/
theorem responded_mem_of_forwarded_mem_exchange (k i : Nat)
    (req : List Nat) (o : AcceptOutcome)
    (h : ProxyEvent.forwarded i req ∈ exchangeEvents k o) :
    ∃ ans, ProxyEvent.responded k ans ∈ exchangeEvents k o := by
  cases o with
  | timeout => simp [exchangeEvents] at h
  | client r chunks ms cs =>
    by_cases hr : r = [] <;> cases ms <;> cases cs <;>
      simp [exchangeEvents, hr] at h ⊢

/-- Within one iteration's exchange, a delivered response is followed by
`client_sock.close()`. -/
theorem closed_mem_of_sentBack_mem_exchange (k i : Nat)
    (ans : Option (List Nat)) (o : AcceptOutcome)
    (h : ProxyEvent.sentBack i ans ∈ exchangeEvents k o) :
    ProxyEvent.closed k ∈ exchangeEvents k o := by
  cases o with
  | timeout => simp [exchangeEvents] at h
  | client r chunks ms cs =>
    by_cases hr : r = [] <;> cases ms <;> cases cs <;>
      simp [exchangeEvents, hr] at h ⊢

/-- Trace-level version of `responded_mem_of_forwarded_mem_exchange`. -/
theorem responded_mem_of_forwarded_mem (inputs : List IterInput) :
    ∀ (j i : Nat) (req : List Nat),
      ProxyEvent.forwarded i req ∈ monitorStartProxy j inputs →
      ∃ ans, ProxyEvent.responded i ans ∈ monitorStartProxy j inputs := by
  induction inputs with
  | nil => intro j i req h; simp [monitorStartProxy] at h
  | cons inp rest ih =>
    intro j i req h
    simp only [monitorStartProxy] at h ⊢
    by_cases hf : inp.flagSet
    · rw [if_pos hf] at h; simp at h
    · rw [if_neg hf] at h ⊢
      rcases List.mem_append.mp h with h | h
      · have hi : i = j := by
          have := eventIter_of_mem_exchangeEvents j inp.outcome _ h
          simpa [eventIter] using this
        subst hi
        obtain ⟨ans, hans⟩ :=
          responded_mem_of_forwarded_mem_exchange i i req inp.outcome h
        exact ⟨ans, List.mem_append.mpr (Or.inl hans)⟩
      · obtain ⟨ans, hans⟩ := ih (j + 1) i req h
        exact ⟨ans, List.mem_append.mpr (Or.inr hans)⟩

/-- Trace-level version of `closed_mem_of_sentBack_mem_exchange`. -/
theorem closed_mem_of_sentBack_mem (inputs : List IterInput) :
    ∀ (j i : Nat) (ans : Option (List Nat)),
      ProxyEvent.sentBack i ans ∈ monitorStartProxy j inputs →
      ProxyEvent.closed i ∈ monitorStartProxy j inputs := by
  induction inputs with
  | nil => intro j i ans h; simp [monitorStartProxy] at h
  | cons inp rest ih =>
    intro j i ans h
    simp only [monitorStartProxy] at h ⊢
    by_cases hf : inp.flagSet
    · rw [if_pos hf] at h; simp at h
    · rw [if_neg hf] at h ⊢
      rcases List.mem_append.mp h with h | h
      · have hi : i = j := by
          have := eventIter_of_mem_exchangeEvents j inp.outcome _ h
          simpa [eventIter] using this
        subst hi
        exact List.mem_append.mpr
          (Or.inl (closed_mem_of_sentBack_mem_exchange i i ans inp.outcome h))
      · exact List.mem_append.mpr (Or.inr (ih (j + 1) i ans h))

/-- C7 counterexample: client 0's request is forwarded and its framed
response fully read, but `client_sock.send(answer)` raises
`BrokenPipeError`, which the loop swallows: no rank-3 (`sentBack`) event
of iteration 0 occurs and `closed 0` never occurs, yet client 1's command
`[2]` is forwarded afterwards. This refutes the claim as stated: a new
client's command is forwarded although the previous exchange's response
was never sent back to the previous client, and that client's connection
is never closed. -/
theorem proxy_broken_pipe_interleaving :
    monitorStartProxy 0
        [⟨false, .client [1] [qemuPrompt] false true⟩,
          ⟨false, .client [2] [qemuPrompt] false false⟩] =
      [.accepted 0, .forwarded 0 [1], .responded 0 (some qemuPrompt),
        .accepted 1, .forwarded 1 [2], .responded 1 (some qemuPrompt),
        .sentBack 1 (some qemuPrompt), .closed 1] ∧
    ProxyEvent.forwarded 1 [2] ∈ monitorStartProxy 0
        [⟨false, .client [1] [qemuPrompt] false true⟩,
          ⟨false, .client [2] [qemuPrompt] false false⟩] ∧
    (monitorStartProxy 0
        [⟨false, .client [1] [qemuPrompt] false true⟩,
          ⟨false, .client [2] [qemuPrompt] false false⟩]).count
      (ProxyEvent.closed 0) = 0 ∧
    (monitorStartProxy 0
        [⟨false, .client [1] [qemuPrompt] false true⟩,
          ⟨false, .client [2] [qemuPrompt] false false⟩]).filter
      (fun e => eventIter e == 0 && eventRank e == 3) = [] := by
  refine ⟨by decide, by decide, by decide, by decide⟩

/-- C7 amended: the proxy serializes exchanges at the console, and
completes each undisturbed exchange, but a mid-exchange broken pipe is
swallowed, leaving that client unanswered and unclosed. Precisely:
(1) events respect the exchange order positionally — in particular no
event of a later iteration precedes any event of an earlier one, so a new
client's command is never forwarded before everything the previous
exchange did; (2) every forwarded command's prompt-framed response is
fully read from the console (and by (1) before any later forward); and
(3) every client whose response was actually sent back has its connection
closed. What the original claim asserted beyond this — response always
sent back to the previous client and every connection closed — fails on
the swallowed `BrokenPipeError` paths. -/
theorem proxy_serializes_console_exchanges :
    (∀ (inputs : List IterInput) (p q : Nat) (ep eq' : ProxyEvent),
      (monitorStartProxy 0 inputs)[p]? = some ep →
      (monitorStartProxy 0 inputs)[q]? = some eq' →
      ProxyEventOrder eq' ep → q < p) ∧
    (∀ (inputs : List IterInput) (i : Nat) (req : List Nat),
      ProxyEvent.forwarded i req ∈ monitorStartProxy 0 inputs →
      ∃ ans, ProxyEvent.responded i ans ∈ monitorStartProxy 0 inputs) ∧
    (∀ (inputs : List IterInput) (i : Nat) (ans : Option (List Nat)),
      ProxyEvent.sentBack i ans ∈ monitorStartProxy 0 inputs →
      ProxyEvent.closed i ∈ monitorStartProxy 0 inputs) :=
  ⟨fun inputs p q ep eq' hp hq hord =>
      pos_lt_of_proxyEventOrder inputs p q ep eq' hp hq hord,
    fun inputs i req h => responded_mem_of_forwarded_mem inputs 0 i req h,
    fun inputs i ans h => closed_mem_of_sentBack_mem inputs 0 i ans h⟩

/-- Witness for C7 (amended): two fully successful clients; client 0's
response (position 2) precedes client 1's forward (position 6), client 0's
forward has a read response in the trace, and client 1, whose response was
sent back, is closed. -/
theorem proxy_serializes_console_exchanges_witness :
    (2 : Nat) < 6 ∧
    (∃ ans, ProxyEvent.responded 0 ans ∈ monitorStartProxy 0
      [⟨false, .client [1] [qemuPrompt] false false⟩,
        ⟨false, .client [2] [qemuPrompt] false false⟩]) ∧
    ProxyEvent.closed 1 ∈ monitorStartProxy 0
      [⟨false, .client [1] [qemuPrompt] false false⟩,
        ⟨false, .client [2] [qemuPrompt] false false⟩] :=
  ⟨proxy_serializes_console_exchanges.1
      [⟨false, .client [1] [qemuPrompt] false false⟩,
        ⟨false, .client [2] [qemuPrompt] false false⟩]
      6 2 (.forwarded 1 [2]) (.responded 0 (some qemuPrompt))
      (by decide) (by decide) (Or.inl (by decide)),
    proxy_serializes_console_exchanges.2.1
      [⟨false, .client [1] [qemuPrompt] false false⟩,
        ⟨false, .client [2] [qemuPrompt] false false⟩]
      0 [1] (by decide),
    proxy_serializes_console_exchanges.2.2
      [⟨false, .client [1] [qemuPrompt] false false⟩,
        ⟨false, .client [2] [qemuPrompt] false false⟩]
      1 (some qemuPrompt) (by decide)⟩

/-- Running the loop from iteration `j` over `k` timed-out accepts with
the flag clear, then one check with the flag set, yields exactly the `k`
timed accepts and terminates. -/
theorem monitorStartProxy_timeout_run (k : Nat) :
    ∀ j : Nat,
      monitorStartProxy j
          (List.replicate k ⟨false, .timeout⟩ ++ [⟨true, .timeout⟩]) =
        (List.range' j k).map ProxyEvent.acceptTimeout := by
  induction k with
  | zero => intro j; simp [monitorStartProxy]
  | succ n ih =>
    intro j
    simp [List.replicate_succ, monitorStartProxy, exchangeEvents, ih,
      List.range']

/-- C8: with no client connecting (every accept times out) and the
cancellation flag set between check `c` and check `c + 1`, the accept loop
performs exactly the `c + 1` timed accepts of checks `0..c` — swallowing
each timeout, with no other event and no error — and exits at the next
flag check. So after cancellation the trace contains exactly one more
timed accept (`acceptTimeout c`, ≤ one poll interval). A mid-exchange
broken pipe is likewise swallowed and the flag re-checked: the loop still
exits errorlessly at the next check. -/
theorem proxy_cancellation_exits_promptly (c : Nat) :
    monitorStartProxy 0
        (List.replicate (c + 1) ⟨false, .timeout⟩ ++ [⟨true, .timeout⟩]) =
      (List.range (c + 1)).map ProxyEvent.acceptTimeout ∧
    ((List.range (c + 1)).map ProxyEvent.acceptTimeout).drop c =
      [ProxyEvent.acceptTimeout c] ∧
    monitorStartProxy 0
        [⟨false, .client [1] [qemuPrompt] false true⟩, ⟨true, .timeout⟩] =
      [.accepted 0, .forwarded 0 [1], .responded 0 (some qemuPrompt)] := by
  refine ⟨?_, ?_, by decide⟩
  · rw [monitorStartProxy_timeout_run (c + 1) 0, List.range_eq_range']
  · rw [List.range_succ, List.map_append]
    have hlen : ((List.range c).map ProxyEvent.acceptTimeout).length = c := by
      simp
    rw [List.drop_left' hlen]
    rfl

end TestRunner
